import Mathlib

/-!
Shallow embedding of the ZKredit ERC-8004 trust-registry contracts
(`IdentityRegistry`, `ReputationRegistry`, `ValidationRegistry`) in Lean 4.

Modelling conventions:
* Addresses, `bytes32` values and hashes are `Nat`; `string` is `String`;
  `bytes` is `List Nat` (one `Nat` per byte, big-endian words).
* Contract storage mappings become total functions with the EVM zero-value
  default; overwriting a slot is a pointwise function update.
* A Solidity external call is modelled in two layers: a *run* function of
  type `... → Except String State` that threads state through the body and
  stops at the first failing `require` (returning the require's reason
  string), and a *transaction* wrapper that applies the run and, on error,
  restores the pre-state — this is the EVM rule that a revert discards every
  storage write of the call.
* The `keccak256(abi.encode(agentId, clientAddress, indexLimit, expiry))`
  usage key is modelled as the 4-tuple itself (keccak is treated as
  injective, the standard collision-free abstraction).
* ECDSA recovery and ERC-1271 programmable-signer checks are cryptographic
  primitives external to the contract; they are abstracted as parameters of
  the execution configuration (`SigModel`).
-/

set_option maxRecDepth 100000

namespace ZKredit

/-- A stored feedback entry (`ReputationRegistry.Feedback`). -/
structure Feedback where
  client : Nat
  score : Nat
  tag1 : Nat
  tag2 : Nat
  feedbackUri : String
  feedbackHash : Nat
  timestamp : Nat
deriving DecidableEq

/-- The EVM zero value of the `Feedback` struct (an unwritten storage slot). -/
def defaultFeedback : Feedback := ⟨0, 0, 0, 0, "", 0, 0⟩

/-- The decoded `FeedbackAuth` struct of `ReputationRegistry`. -/
structure FeedbackAuth where
  agentId : Nat
  clientAddress : Nat
  indexLimit : Nat
  expiry : Nat
  chainId : Nat
  identityRegistry : Nat
  signerAddress : Nat
deriving DecidableEq

/-- Big-endian interpretation of a byte list as a natural number. -/
def beWord (bs : List Nat) : Nat := bs.foldl (fun acc b => acc * 256 + b) 0

/-- The `i`-th 32-byte word of a byte blob, big-endian. -/
def wordAt (blob : List Nat) (i : Nat) : Nat := beWord ((blob.drop (32 * i)).take 32)

/-- Model of `abi.decode(feedbackAuth[:224], (FeedbackAuth))`: the seven
32-byte head words of the blob become the struct fields; Solidity 0.8
`abi.decode` validates that `address` words fit 160 bits and the `uint64`
word fits 64 bits, reverting otherwise. -/
def decodeFeedbackAuth (blob : List Nat) : Except String FeedbackAuth :=
  if wordAt blob 1 < 2 ^ 160 ∧ wordAt blob 2 < 2 ^ 64 ∧
      wordAt blob 5 < 2 ^ 160 ∧ wordAt blob 6 < 2 ^ 160 then
    .ok ⟨wordAt blob 0, wordAt blob 1, wordAt blob 2, wordAt blob 3,
         wordAt blob 4, wordAt blob 5, wordAt blob 6⟩
  else .error "abi decoding failed"

/-- The usage key `keccak256(abi.encode(agentId, clientAddress, indexLimit,
expiry))`, modelled as the tuple itself. -/
def authKey (auth : FeedbackAuth) : Nat × Nat × Nat × Nat :=
  (auth.agentId, auth.clientAddress, auth.indexLimit, auth.expiry)

/-- Storage of `ReputationRegistry`. -/
structure RepState where
  feedback : Nat → Nat → Feedback
  feedbackCount : Nat → Nat
  authUsageCount : Nat × Nat × Nat × Nat → Nat

/-- The storage of a freshly deployed `ReputationRegistry`. -/
def initialRepState : RepState :=
  ⟨fun _ _ => defaultFeedback, fun _ => 0, fun _ => 0⟩

/-- Per-call EVM environment: `msg.sender`, `block.timestamp`, `block.chainid`. -/
structure CallEnv where
  sender : Nat
  timestamp : Nat
  chainId : Nat
deriving DecidableEq

/-- Abstraction of the cryptographic primitives used for signature
verification: `extcodesize`, `ECDSA.recover` (which reverts on a malformed
signature, hence `Except`), the ERC-1271 `isValidSignature` external call
(a `try/catch` absorbs its reverts into `false`), and the signed message
hash `toEthSignedMessageHash(keccak256(abi.encode(...7 fields...)))`. -/
structure SigModel where
  codeLen : Nat → Nat
  ecdsaRecover : Nat → List Nat → Except String Nat
  erc1271Ok : Nat → Nat → List Nat → Bool
  authMsgHash : FeedbackAuth → Nat

/-- Deployment-fixed configuration: the address of the identity registry
(the immutable `identityRegistry` field) and the signature primitives. -/
structure Config where
  identityRegistryAddr : Nat
  sig : SigModel

/-- Storage of `IdentityRegistry` (an ERC-721 with URI storage and
extensible metadata). `owners id = none` models an unminted token, for
which `ownerOf` reverts with `ERC721NonexistentToken`. -/
structure IdentityState where
  owners : Nat → Option Nat
  tokenApprovals : Nat → Nat
  operatorApprovals : Nat → Nat → Bool
  tokenURIs : Nat → String
  metadata : Nat → String → List Nat
  lastId : Nat

/-- The storage of a freshly deployed `IdentityRegistry`. -/
def initialIdentityState : IdentityState :=
  ⟨fun _ => none, fun _ => 0, fun _ _ => false, fun _ => "", fun _ _ => [], 0⟩

/-- ERC-721 `ownerOf`: reverts when the token was never minted. -/
def ownerOf (idSt : IdentityState) (id : Nat) : Except String Nat :=
  match idSt.owners id with
  | some o => .ok o
  | none => .error "ERC721NonexistentToken"

/-- Model of `ECDSA.recover` / ERC-1271 branch of `_verifyFeedbackAuth`
(lines 166-181): an address with no code is verified as an EOA signature,
otherwise the signer contract's `isValidSignature` decides. -/
def sigCheck (cfg : Config) (auth : FeedbackAuth) (signature : List Nat) :
    Except String Bool :=
  if cfg.sig.codeLen auth.signerAddress = 0 then
    match cfg.sig.ecdsaRecover (cfg.sig.authMsgHash auth) signature with
    | .error e => .error e
    | .ok recovered => .ok (recovered = auth.signerAddress)
  else
    .ok (cfg.sig.erc1271Ok auth.signerAddress (cfg.sig.authMsgHash auth) signature)

/-- Model of the final signer-authorization check of `_verifyFeedbackAuth`
(lines 184-191): the signer must be the agent's owner, a blanket-approved
operator of the owner, or the per-token approved delegate. `ownerOf`
reverts if the agent does not exist. -/
def signerAuthCheck (idSt : IdentityState) (auth : FeedbackAuth) :
    Except String Bool :=
  match ownerOf idSt auth.agentId with
  | .error e => .error e
  | .ok agentOwner =>
      .ok (auth.signerAddress = agentOwner ∨
        idSt.operatorApprovals agentOwner auth.signerAddress = true ∨
        idSt.tokenApprovals auth.agentId = auth.signerAddress)

/-- The five ordered parameter checks of `_verifyFeedbackAuth` (lines
135-139), bundled as one predicate. -/
def authParamsOk (cfg : Config) (env : CallEnv) (agentId : Nat)
    (auth : FeedbackAuth) : Prop :=
  auth.agentId = agentId ∧ auth.clientAddress = env.sender ∧
  env.timestamp < auth.expiry ∧ auth.chainId = env.chainId ∧
  auth.identityRegistry = cfg.identityRegistryAddr

instance (cfg : Config) (env : CallEnv) (agentId : Nat) (auth : FeedbackAuth) :
    Decidable (authParamsOk cfg env agentId auth) := by
  unfold authParamsOk; infer_instance

/-- Increment the stored usage count of one authorization key
(`_authUsageCount[authKey] = currentUsage + 1`, line 150). -/
def bumpUsage (s : RepState) (k : Nat × Nat × Nat × Nat) : RepState :=
  { s with authUsageCount :=
      fun q => if q = k then s.authUsageCount k + 1 else s.authUsageCount q }

/-- The body of `ReputationRegistry._verifyFeedbackAuth` (lines 130-192):
decode the first 224 bytes, check the five parameters in order, check and
consume the usage limit, verify the signature over the remaining bytes,
and check the signer's authority; each failing `require` stops the run
with its reason string. -/
def verifyFeedbackAuthRun (cfg : Config) (env : CallEnv) (idSt : IdentityState)
    (agentId : Nat) (blob : List Nat) (s : RepState) : Except String RepState :=
  match decodeFeedbackAuth blob with
  | .error e => .error e
  | .ok auth =>
    if auth.agentId = agentId then
      if auth.clientAddress = env.sender then
        if env.timestamp < auth.expiry then
          if auth.chainId = env.chainId then
            if auth.identityRegistry = cfg.identityRegistryAddr then
              if s.authUsageCount (authKey auth) < auth.indexLimit then
                let s1 := bumpUsage s (authKey auth)
                match sigCheck cfg auth (blob.drop 224) with
                | .error e => .error e
                | .ok isValid =>
                  if isValid then
                    match signerAuthCheck idSt auth with
                    | .error e => .error e
                    | .ok authorized =>
                      if authorized then .ok s1
                      else .error "Signer not authorized"
                  else .error "Invalid signature"
              else .error "Authorization limit exceeded"
            else .error "Registry mismatch"
          else .error "Chain ID mismatch"
        else .error "Authorization expired"
      else .error "Client address mismatch"
    else .error "AgentId mismatch"

/-- Arguments of `giveFeedback`. -/
structure GiveFeedbackArgs where
  agentId : Nat
  score : Nat
  tag1 : Nat
  tag2 : Nat
  feedbackUri : String
  feedbackHash : Nat
  feedbackAuth : List Nat
deriving DecidableEq

/-- The `Feedback` record that `giveFeedback` stores (lines 100-108). -/
def mkFeedback (env : CallEnv) (a : GiveFeedbackArgs) : Feedback :=
  ⟨env.sender, a.score, a.tag1, a.tag2, a.feedbackUri, a.feedbackHash, env.timestamp⟩

/-- Storage effect of lines 99-108 of `giveFeedback`: increment the agent's
feedback count and store the entry at the new 1-based index. -/
def appendFeedback (s : RepState) (aid : Nat) (fb : Feedback) : RepState :=
  { s with
    feedbackCount := fun id => if id = aid then s.feedbackCount aid + 1
      else s.feedbackCount id,
    feedback := fun id i => if id = aid ∧ i = s.feedbackCount aid + 1 then fb
      else s.feedback id i }

/-- The body of `ReputationRegistry.giveFeedback` (lines 83-121): score and
blob-length guards, authorization verification, then the append. Note the
length guard of line 93 is `feedbackAuth.length >= 289`. -/
def giveFeedbackRun (cfg : Config) (env : CallEnv) (idSt : IdentityState)
    (a : GiveFeedbackArgs) (s : RepState) : Except String RepState :=
  if a.score ≤ 100 then
    if 289 ≤ a.feedbackAuth.length then
      match verifyFeedbackAuthRun cfg env idSt a.agentId a.feedbackAuth s with
      | .error e => .error e
      | .ok s1 => .ok (appendFeedback s1 a.agentId (mkFeedback env a))
    else .error "Invalid feedbackAuth length"
  else .error "Score must be <= 100"

/-- Transaction-level semantics of an external `giveFeedback` call: a revert
discards every storage write, so on error the observable post-state is the
pre-state; the boolean records whether the call succeeded. -/
def giveFeedbackTx (cfg : Config) (env : CallEnv) (idSt : IdentityState)
    (a : GiveFeedbackArgs) (s : RepState) : RepState × Bool :=
  match giveFeedbackRun cfg env idSt a s with
  | .ok s1 => (s1, true)
  | .error _ => (s, false)

/-- Model of `ReputationRegistry.getFeedback` (lines 202-209): 1-based bounds check,
then the stored entry. -/
def getFeedback (s : RepState) (agentId index : Nat) : Except String Feedback :=
  if 0 < index ∧ index ≤ s.feedbackCount agentId then .ok (s.feedback agentId index)
  else .error "Invalid index"

/-- Model of `ReputationRegistry.getFeedbackBatch` (lines 218-233): inclusive range
checks, then the entries `startIndex + i` for `i < endIndex - startIndex + 1`. -/
def getFeedbackBatch (s : RepState) (agentId startIndex endIndex : Nat) :
    Except String (List Feedback) :=
  if 0 < startIndex then
    if endIndex ≤ s.feedbackCount agentId then
      if startIndex ≤ endIndex then
        .ok ((List.range (endIndex - startIndex + 1)).map
          (fun i => s.feedback agentId (startIndex + i)))
      else .error "Invalid range"
    else .error "End index out of range"
  else .error "Start index must be > 0"

/-- Sum of the stored scores of entries `1..count`, the loop of
`getAverageScore` (lines 248-251). -/
def sumScores (s : RepState) (agentId : Nat) : Nat :=
  ((List.range (s.feedbackCount agentId)).map
    (fun i => (s.feedback agentId (i + 1)).score)).sum

/-- Model of `ReputationRegistry.getAverageScore` (lines 240-254): `(0, 0)` for an
agent without feedback, otherwise `(sum * 100 / count, count)` with EVM
(floor) division. -/
def getAverageScore (s : RepState) (agentId : Nat) : Nat × Nat :=
  let count := s.feedbackCount agentId
  if count = 0 then (0, 0)
  else (sumScores s agentId * 100 / count, count)

/-- Model of `ReputationRegistry.getAuthUsage` (lines 283-296). -/
def getAuthUsage (s : RepState) (agentId clientAddress indexLimit expiry : Nat) : Nat :=
  s.authUsageCount (agentId, clientAddress, indexLimit, expiry)

/-- Model of `ValidationRegistry.ValidationStatus`; `Pending` is the enum's zero value. -/
inductive ValidationStatus
  | Pending
  | Responded
  | Cancelled
deriving DecidableEq

/-- A stored validation request (`ValidationRegistry.ValidationRequest`). -/
structure ValidationRequest where
  agentId : Nat
  client : Nat
  requestUri : String
  requestHash : Nat
  timestamp : Nat
  status : ValidationStatus
deriving DecidableEq

/-- The EVM zero value of a `ValidationRequest` slot: all-zero fields with
status `Pending` (the zero member of the enum). -/
def defaultRequest : ValidationRequest := ⟨0, 0, "", 0, 0, .Pending⟩

/-- A stored validation response (`ValidationRegistry.ValidationResponse`). -/
structure ValidationResponse where
  responseUri : String
  responseHash : Nat
  timestamp : Nat
  isValid : Bool
deriving DecidableEq

/-- The EVM zero value of a `ValidationResponse` slot. -/
def defaultResponse : ValidationResponse := ⟨"", 0, 0, false⟩

/-- Storage of `ValidationRegistry`. -/
structure ValState where
  requests : Nat → ValidationRequest
  responses : Nat → ValidationResponse
  requestCounter : Nat
  agentRequests : Nat → List Nat
  clientRequests : Nat → List Nat

/-- The storage of a freshly deployed `ValidationRegistry`. -/
def initialValState : ValState :=
  ⟨fun _ => defaultRequest, fun _ => defaultResponse, 0, fun _ => [], fun _ => []⟩

/-- The caller-authorization disjunction shared by `respondToValidation`
(part_000 lines 142-148) and `IdentityRegistry._isAuthorized`: caller is
the agent's owner, a blanket-approved operator, or the per-token delegate;
`ownerOf` reverts when the agent does not exist. -/
def isAuthorizedFor (idSt : IdentityState) (caller agentId : Nat) :
    Except String Bool :=
  match ownerOf idSt agentId with
  | .error e => .error e
  | .ok agentOwner =>
      .ok (caller = agentOwner ∨
        idSt.operatorApprovals agentOwner caller = true ∨
        idSt.tokenApprovals agentId = caller)

/-- The body of `ValidationRegistry.requestValidation` (part_000 lines
92-122): require the agent to exist (`ownerOf` reverts for an unminted id
and an owner is never the zero address), assign the next sequential id,
store the Pending request, and index it under agent and client. Returns
the new request id with the post-state. -/
def requestValidationRun (env : CallEnv) (idSt : IdentityState)
    (agentId : Nat) (requestUri : String) (requestHash : Nat) (s : ValState) :
    Except String (ValState × Nat) :=
  match ownerOf idSt agentId with
  | .error e => .error e
  | .ok agentOwner =>
    if agentOwner ≠ 0 then
      let requestId := s.requestCounter + 1
      let req : ValidationRequest :=
        ⟨agentId, env.sender, requestUri, requestHash, env.timestamp, .Pending⟩
      .ok ({ s with
        requestCounter := requestId,
        requests := fun id => if id = requestId then req else s.requests id,
        agentRequests := fun a => if a = agentId then s.agentRequests a ++ [requestId]
          else s.agentRequests a,
        clientRequests := fun c => if c = env.sender then s.clientRequests c ++ [requestId]
          else s.clientRequests c }, requestId)
    else .error "Agent does not exist"

/-- The body of `ValidationRegistry.respondToValidation` (part_000 lines
131-166): require the stored request (possibly the never-written default
slot) to be Pending, require the caller authorized for the request's
`agentId`, then set the status to Responded and store the response. -/
def respondToValidationRun (env : CallEnv) (idSt : IdentityState)
    (requestId : Nat) (responseUri : String) (responseHash : Nat)
    (isValid : Bool) (s : ValState) : Except String ValState :=
  let request := s.requests requestId
  if request.status = .Pending then
    match isAuthorizedFor idSt env.sender request.agentId with
    | .error e => .error e
    | .ok authorized =>
      if authorized then
        .ok { s with
          requests := fun id => if id = requestId then { request with status := .Responded }
            else s.requests id,
          responses := fun id => if id = requestId then
              ⟨responseUri, responseHash, env.timestamp, isValid⟩
            else s.responses id }
      else .error "Not authorized"
  else .error "Request not pending"

/-- The body of `ValidationRegistry.cancelValidation` (part_000 lines
172-180): require caller to be the request's client and the status Pending,
then set the status to Cancelled. -/
def cancelValidationRun (env : CallEnv) (requestId : Nat) (s : ValState) :
    Except String ValState :=
  let request := s.requests requestId
  if request.client = env.sender then
    if request.status = .Pending then
      .ok { s with
        requests := fun id => if id = requestId then { request with status := .Cancelled }
          else s.requests id }
    else .error "Request not pending"
  else .error "Not request owner"

/-- Model of `ValidationRegistry.getRequest` (part_000 lines 189-195): unchecked read
of the request slot, returning the zeroed default for never-written ids. -/
def getRequest (s : ValState) (requestId : Nat) : ValidationRequest :=
  s.requests requestId

/-- Model of `ValidationRegistry.getResponse` (part_000 lines 202-209). -/
def getResponse (s : ValState) (requestId : Nat) : Except String ValidationResponse :=
  if (s.requests requestId).status = .Responded then .ok (s.responses requestId)
  else .error "No response yet"

/-- Model of `ValidationRegistry.totalRequests` (part_000 lines 259-261). -/
def totalRequests (s : ValState) : Nat := s.requestCounter

/-- One metadata key/value pair of `IdentityRegistry.register`. -/
structure MetadataEntry where
  key : String
  value : List Nat
deriving DecidableEq

/-- The body of `IdentityRegistry.register(tokenUri, metadata)` (covering
the simpler overloads with an empty uri or metadata list): allocate
`_lastId++` (ids start at 0), mint to the caller, set the URI and seed the
metadata entries. Mint requires a nonzero receiver and an unminted id; the
ERC-721 receiver hook of `_safeMint` is not modelled. -/
def registerRun (env : CallEnv) (tokenUri : String)
    (metadata : List MetadataEntry) (s : IdentityState) :
    Except String (IdentityState × Nat) :=
  let agentId := s.lastId
  if env.sender ≠ 0 then
    match s.owners agentId with
    | some _ => .error "ERC721InvalidSender"
    | none =>
      let afterMint : IdentityState := { s with
        lastId := s.lastId + 1,
        owners := fun id => if id = agentId then some env.sender else s.owners id,
        tokenURIs := fun id => if id = agentId then tokenUri else s.tokenURIs id }
      .ok ({ afterMint with
        metadata := fun id k =>
          match (metadata.filter (fun e => e.key = k)).getLast? with
          | some e => if id = agentId then e.value else s.metadata id k
          | none => s.metadata id k }, agentId)
  else .error "ERC721InvalidReceiver"

/-- The body of `IdentityRegistry.setMetadata` (lines 187-192): require the
caller authorized for the agent, then store the value. -/
def setMetadataRun (env : CallEnv) (agentId : Nat) (key : String)
    (value : List Nat) (s : IdentityState) : Except String IdentityState :=
  match isAuthorizedFor s env.sender agentId with
  | .error e => .error e
  | .ok authorized =>
    if authorized then
      .ok { s with metadata := fun id k =>
        if id = agentId ∧ k = key then value else s.metadata id k }
    else .error "Not authorized"

/-- The body of `IdentityRegistry.setAgentUri` (lines 199-204). -/
def setAgentUriRun (env : CallEnv) (agentId : Nat) (newUri : String)
    (s : IdentityState) : Except String IdentityState :=
  match isAuthorizedFor s env.sender agentId with
  | .error e => .error e
  | .ok authorized =>
    if authorized then
      .ok { s with tokenURIs := fun id => if id = agentId then newUri else s.tokenURIs id }
    else .error "Not authorized"

/-- ERC-721 `approve(to, tokenId)` as inherited by `IdentityRegistry`
(OpenZeppelin v5): the token must exist and the caller must be its owner
or a blanket-approved operator; sets the single per-token delegate. -/
def approveRun (env : CallEnv) (toAddr tokenId : Nat) (s : IdentityState) :
    Except String IdentityState :=
  match ownerOf s tokenId with
  | .error e => .error e
  | .ok tokOwner =>
    if env.sender = tokOwner ∨ s.operatorApprovals tokOwner env.sender = true then
      .ok { s with tokenApprovals := fun id => if id = tokenId then toAddr
        else s.tokenApprovals id }
    else .error "ERC721InvalidApprover"

/-- ERC-721 `setApprovalForAll(operator, approved)` as inherited by
`IdentityRegistry` (OpenZeppelin v5): the operator must be nonzero. -/
def setApprovalForAllRun (env : CallEnv) (operator : Nat) (approved : Bool)
    (s : IdentityState) : Except String IdentityState :=
  if operator ≠ 0 then
    .ok { s with operatorApprovals := fun o p =>
      if o = env.sender ∧ p = operator then approved else s.operatorApprovals o p }
  else .error "ERC721InvalidOperator"

/-- Combined observable storage of the three deployed registries. -/
structure World where
  idState : IdentityState
  rep : RepState
  val : ValState

/-- The combined storage right after deployment. -/
def initialWorld : World := ⟨initialIdentityState, initialRepState, initialValState⟩

/-- The externally invokable mutating operations of the three registries. -/
inductive RegistryOp
  | register (tokenUri : String) (metadata : List MetadataEntry)
  | setMetadata (agentId : Nat) (key : String) (value : List Nat)
  | setAgentUri (agentId : Nat) (newUri : String)
  | approve (toAddr tokenId : Nat)
  | setApprovalForAll (operator : Nat) (approved : Bool)
  | giveFeedback (a : GiveFeedbackArgs)
  | requestValidation (agentId : Nat) (requestUri : String) (requestHash : Nat)
  | respondToValidation (requestId : Nat) (responseUri : String)
      (responseHash : Nat) (isValid : Bool)
  | cancelValidation (requestId : Nat)

/-- Run one external operation over the combined storage, stopping at the
first failing `require`. -/
def execOp (cfg : Config) (env : CallEnv) (op : RegistryOp) (w : World) :
    Except String World :=
  match op with
  | .register tokenUri metadata =>
    match registerRun env tokenUri metadata w.idState with
    | .error e => .error e
    | .ok (idSt1, _) => .ok { w with idState := idSt1 }
  | .setMetadata agentId key value =>
    match setMetadataRun env agentId key value w.idState with
    | .error e => .error e
    | .ok idSt1 => .ok { w with idState := idSt1 }
  | .setAgentUri agentId newUri =>
    match setAgentUriRun env agentId newUri w.idState with
    | .error e => .error e
    | .ok idSt1 => .ok { w with idState := idSt1 }
  | .approve toAddr tokenId =>
    match approveRun env toAddr tokenId w.idState with
    | .error e => .error e
    | .ok idSt1 => .ok { w with idState := idSt1 }
  | .setApprovalForAll operator approved =>
    match setApprovalForAllRun env operator approved w.idState with
    | .error e => .error e
    | .ok idSt1 => .ok { w with idState := idSt1 }
  | .giveFeedback a =>
    match giveFeedbackRun cfg env w.idState a w.rep with
    | .error e => .error e
    | .ok rep1 => .ok { w with rep := rep1 }
  | .requestValidation agentId requestUri requestHash =>
    match requestValidationRun env w.idState agentId requestUri requestHash w.val with
    | .error e => .error e
    | .ok (val1, _) => .ok { w with val := val1 }
  | .respondToValidation requestId responseUri responseHash isValid =>
    match respondToValidationRun env w.idState requestId responseUri responseHash isValid w.val with
    | .error e => .error e
    | .ok val1 => .ok { w with val := val1 }
  | .cancelValidation requestId =>
    match cancelValidationRun env requestId w.val with
    | .error e => .error e
    | .ok val1 => .ok { w with val := val1 }

/-- Transaction-level semantics of an external call on the shared ledger:
a revert discards every storage write of the call, so the observable
post-state of a failed call is the pre-state. The boolean records success. -/
def execTx (cfg : Config) (env : CallEnv) (op : RegistryOp) (w : World) :
    World × Bool :=
  match execOp cfg env op w with
  | .ok w1 => (w1, true)
  | .error _ => (w, false)

/-- Worlds reachable from deployment by any sequence of external calls
(failed calls leave the world unchanged by `execTx`). -/
inductive Reachable (cfg : Config) : World → Prop
  | init : Reachable cfg initialWorld
  | step (env : CallEnv) (op : RegistryOp) (w : World) :
      Reachable cfg w → Reachable cfg (execTx cfg env op w).1

/-- The `bumpUsage` update only touches the usage table, pointwise. -/
theorem bumpUsage_authUsageCount (s : RepState) (k q : Nat × Nat × Nat × Nat) :
    (bumpUsage s k).authUsageCount q =
      if q = k then s.authUsageCount k + 1 else s.authUsageCount q := rfl

/-- The `appendFeedback` update does not touch the usage table. -/
theorem appendFeedback_authUsageCount (s : RepState) (aid : Nat) (fb : Feedback) :
    (appendFeedback s aid fb).authUsageCount = s.authUsageCount := rfl

/-- Success characterization of `_verifyFeedbackAuth`: the run succeeds
exactly when the blob decodes, the five parameter checks hold, the usage
count is below the limit, the signature verifies and the signer is
authorized; the post-state is the pre-state with that key's usage bumped. -/
theorem verifyFeedbackAuthRun_ok_iff (cfg : Config) (env : CallEnv)
    (idSt : IdentityState) (agentId : Nat) (blob : List Nat) (s s1 : RepState) :
    verifyFeedbackAuthRun cfg env idSt agentId blob s = .ok s1 ↔
      ∃ auth, decodeFeedbackAuth blob = .ok auth ∧
        authParamsOk cfg env agentId auth ∧
        s.authUsageCount (authKey auth) < auth.indexLimit ∧
        sigCheck cfg auth (blob.drop 224) = .ok true ∧
        signerAuthCheck idSt auth = .ok true ∧
        s1 = bumpUsage s (authKey auth) := by
  constructor
  · intro h
    simp only [verifyFeedbackAuthRun] at h
    split at h
    · cases h
    next auth hdec =>
      split at h
      next h1 =>
        split at h
        next h2 =>
          split at h
          next h3 =>
            split at h
            next h4 =>
              split at h
              next h5 =>
                split at h
                next h6 =>
                  split at h
                  · cases h
                  next isValid hsig =>
                    split at h
                    next hval =>
                      split at h
                      · cases h
                      next authorized hsa =>
                        split at h
                        next hok =>
                          cases h
                          subst hval
                          subst hok
                          exact ⟨auth, hdec, ⟨h1, h2, h3, h4, h5⟩, h6, hsig, hsa, rfl⟩
                        next => cases h
                    next => cases h
                next => cases h
              next => cases h
            next => cases h
          next => cases h
        next => cases h
      next => cases h
  · rintro ⟨auth, hdec, ⟨h1, h2, h3, h4, h5⟩, h6, hsig, hsa, rfl⟩
    simp only [verifyFeedbackAuthRun, hdec, hsig, hsa, h1, h2, h3, h4, h5, h6,
      if_true, if_pos]

/-- Success characterization of `giveFeedback`:
score and length guards, the verification conditions, and the post-state. -/
theorem giveFeedbackRun_ok_iff (cfg : Config) (env : CallEnv)
    (idSt : IdentityState) (a : GiveFeedbackArgs) (s s2 : RepState) :
    giveFeedbackRun cfg env idSt a s = .ok s2 ↔
      a.score ≤ 100 ∧ 289 ≤ a.feedbackAuth.length ∧
      ∃ auth, decodeFeedbackAuth a.feedbackAuth = .ok auth ∧
        authParamsOk cfg env a.agentId auth ∧
        s.authUsageCount (authKey auth) < auth.indexLimit ∧
        sigCheck cfg auth (a.feedbackAuth.drop 224) = .ok true ∧
        signerAuthCheck idSt auth = .ok true ∧
        s2 = appendFeedback (bumpUsage s (authKey auth)) a.agentId
          (mkFeedback env a) := by
  constructor
  · intro h
    simp only [giveFeedbackRun] at h
    split at h
    next hscore =>
      split at h
      next hlen =>
        split at h
        · cases h
        next s1 hver =>
          cases h
          obtain ⟨auth, hdec, hp, hu, hsig, hsa, hs1⟩ :=
            (verifyFeedbackAuthRun_ok_iff cfg env idSt a.agentId a.feedbackAuth s s1).1 hver
          exact ⟨hscore, hlen, auth, hdec, hp, hu, hsig, hsa, by rw [hs1]⟩
      next => cases h
    next => cases h
  · rintro ⟨hscore, hlen, auth, hdec, hp, hu, hsig, hsa, rfl⟩
    have hver : verifyFeedbackAuthRun cfg env idSt a.agentId a.feedbackAuth s
        = .ok (bumpUsage s (authKey auth)) :=
      (verifyFeedbackAuthRun_ok_iff cfg env idSt a.agentId a.feedbackAuth s _).2
        ⟨auth, hdec, hp, hu, hsig, hsa, rfl⟩
    simp only [giveFeedbackRun, if_pos hscore, if_pos hlen, hver]

/-- Success characterization of `requestValidation`: the new id is the
incremented counter and only that slot (plus the two indexes) is written. -/
theorem requestValidationRun_ok (env : CallEnv) (idSt : IdentityState)
    (agentId : Nat) (uri : String) (hsh : Nat) (s val1 : ValState) (rid : Nat)
    (h : requestValidationRun env idSt agentId uri hsh s = .ok (val1, rid)) :
    rid = s.requestCounter + 1 ∧
    val1.requestCounter = s.requestCounter + 1 ∧
    (∀ id, val1.requests id = if id = s.requestCounter + 1 then
        ⟨agentId, env.sender, uri, hsh, env.timestamp, .Pending⟩ else s.requests id) ∧
    val1.responses = s.responses := by
  simp only [requestValidationRun] at h
  split at h
  · cases h
  next agentOwner hown =>
    split at h
    next hne =>
      cases h
      exact ⟨rfl, rfl, fun id => rfl, rfl⟩
    next => cases h

/-- Success characterization of `respondToValidation`: it succeeds only on a
Pending slot with an authorized caller, sets that slot Responded and stores
the response; nothing else changes. -/
theorem respondToValidationRun_ok (env : CallEnv) (idSt : IdentityState)
    (rid : Nat) (uri : String) (hsh : Nat) (iv : Bool) (s val1 : ValState)
    (h : respondToValidationRun env idSt rid uri hsh iv s = .ok val1) :
    (s.requests rid).status = .Pending ∧
    isAuthorizedFor idSt env.sender (s.requests rid).agentId = .ok true ∧
    val1.requestCounter = s.requestCounter ∧
    (∀ id, val1.requests id = if id = rid then
        { s.requests rid with status := .Responded } else s.requests id) ∧
    (∀ id, val1.responses id = if id = rid then
        ⟨uri, hsh, env.timestamp, iv⟩ else s.responses id) := by
  simp only [respondToValidationRun] at h
  split at h
  next hpend =>
    split at h
    · cases h
    next authorized hauth =>
      split at h
      next hok =>
        cases h
        subst hok
        exact ⟨hpend, hauth, rfl, fun id => rfl, fun id => rfl⟩
      next => cases h
  next => cases h

/-- Success characterization of `cancelValidation`: it succeeds only for the
request's client on a Pending slot, and sets only that slot Cancelled. -/
theorem cancelValidationRun_ok (env : CallEnv) (rid : Nat) (s val1 : ValState)
    (h : cancelValidationRun env rid s = .ok val1) :
    (s.requests rid).client = env.sender ∧
    (s.requests rid).status = .Pending ∧
    val1.requestCounter = s.requestCounter ∧
    (∀ id, val1.requests id = if id = rid then
        { s.requests rid with status := .Cancelled } else s.requests id) ∧
    val1.responses = s.responses := by
  simp only [cancelValidationRun] at h
  split at h
  next hcl =>
    split at h
    next hpend =>
      cases h
      exact ⟨hcl, hpend, rfl, fun id => rfl, rfl⟩
    next => cases h
  next => cases h

/-- Marks the operations that write `ValidationRegistry` storage. -/
def RegistryOp.touchesVal : RegistryOp → Bool
  | .requestValidation .. => true
  | .respondToValidation .. => true
  | .cancelValidation .. => true
  | _ => false

/-- Marks the operations that write `ReputationRegistry` storage. -/
def RegistryOp.touchesRep : RegistryOp → Bool
  | .giveFeedback _ => true
  | _ => false

/-- A successful operation of another registry leaves `ValidationRegistry`
storage untouched. -/
theorem execOp_val_unchanged (cfg : Config) (env : CallEnv) (op : RegistryOp)
    (w w1 : World) (h : execOp cfg env op w = .ok w1)
    (hop : op.touchesVal = false) : w1.val = w.val := by
  cases op <;>
    first
      | (simp only [execOp] at h; split at h <;> cases h <;> rfl)
      | simp [RegistryOp.touchesVal] at hop

/-- A successful operation of another registry leaves `ReputationRegistry`
storage untouched. -/
theorem execOp_rep_unchanged (cfg : Config) (env : CallEnv) (op : RegistryOp)
    (w w1 : World) (h : execOp cfg env op w = .ok w1)
    (hop : op.touchesRep = false) : w1.rep = w.rep := by
  cases op <;>
    first
      | (simp only [execOp] at h; split at h <;> cases h <;> rfl)
      | simp [RegistryOp.touchesRep] at hop

/-- The `bumpUsage` update does not touch the feedback table. -/
theorem bumpUsage_feedback (s : RepState) (k : Nat × Nat × Nat × Nat) :
    (bumpUsage s k).feedback = s.feedback := rfl

/-- The `bumpUsage` update does not touch the feedback counters. -/
theorem bumpUsage_feedbackCount (s : RepState) (k : Nat × Nat × Nat × Nat) :
    (bumpUsage s k).feedbackCount = s.feedbackCount := rfl

/-- Pointwise effect of `appendFeedback` on the counters. -/
theorem appendFeedback_feedbackCount (s : RepState) (aid : Nat) (fb : Feedback)
    (id : Nat) : (appendFeedback s aid fb).feedbackCount id =
      if id = aid then s.feedbackCount aid + 1 else s.feedbackCount id := rfl

/-- Pointwise effect of `appendFeedback` on the feedback table. -/
theorem appendFeedback_feedback (s : RepState) (aid : Nat) (fb : Feedback)
    (id i : Nat) : (appendFeedback s aid fb).feedback id i =
      if id = aid ∧ i = s.feedbackCount aid + 1 then fb else s.feedback id i := rfl

/-- Reachability invariant: a stored usage count never exceeds the
`indexLimit` component of its own key (each increment is guarded by
`currentUsage < auth.indexLimit` and keyed by that same `indexLimit`). -/
theorem reachable_usage_le_limit (cfg : Config) (w : World)
    (h : Reachable cfg w) :
    ∀ ka kc kl ke, w.rep.authUsageCount (ka, kc, kl, ke) ≤ kl := by
  induction h with
  | init => intro ka kc kl ke; exact Nat.zero_le kl
  | step env op w hw ih =>
    intro ka kc kl ke
    unfold execTx
    cases hexec : execOp cfg env op w with
    | error e => exact ih ka kc kl ke
    | ok w1 =>
      show w1.rep.authUsageCount (ka, kc, kl, ke) ≤ kl
      cases hrep : op.touchesRep with
      | false =>
        rw [execOp_rep_unchanged cfg env op w w1 hexec hrep]
        exact ih ka kc kl ke
      | true =>
        cases op <;> simp only [RegistryOp.touchesRep] at hrep <;> try cases hrep
        next args =>
          simp only [execOp] at hexec
          split at hexec
          · cases hexec
          next rep1 hrun =>
            cases hexec
            obtain ⟨-, -, auth, -, -, hu, -, -, hrep1⟩ :=
              (giveFeedbackRun_ok_iff cfg env w.idState args w.rep rep1).1 hrun
            subst hrep1
            show (appendFeedback (bumpUsage w.rep (authKey auth)) args.agentId
              (mkFeedback env args)).authUsageCount (ka, kc, kl, ke) ≤ kl
            rw [appendFeedback_authUsageCount, bumpUsage_authUsageCount]
            split
            next heq =>
              have hkl : kl = auth.indexLimit := by
                simp only [authKey, Prod.mk.injEq] at heq
                exact heq.2.2.1
              omega
            next => exact ih ka kc kl ke

/-- Reachability invariant: the feedback table is zero above the counter
(entries exist exactly at indices `1..feedbackCount`). -/
theorem reachable_feedback_default (cfg : Config) (w : World)
    (h : Reachable cfg w) :
    ∀ aid i, w.rep.feedbackCount aid < i → w.rep.feedback aid i = defaultFeedback := by
  induction h with
  | init => intro aid i _; rfl
  | step env op w hw ih =>
    intro aid i hi
    revert hi
    unfold execTx
    cases hexec : execOp cfg env op w with
    | error e => exact ih aid i
    | ok w1 =>
      show w1.rep.feedbackCount aid < i → w1.rep.feedback aid i = defaultFeedback
      cases hrep : op.touchesRep with
      | false =>
        rw [execOp_rep_unchanged cfg env op w w1 hexec hrep]
        exact ih aid i
      | true =>
        cases op <;> simp only [RegistryOp.touchesRep] at hrep <;> try cases hrep
        next args =>
          simp only [execOp] at hexec
          split at hexec
          · cases hexec
          next rep1 hrun =>
            cases hexec
            obtain ⟨-, -, auth, -, -, -, -, -, hrep1⟩ :=
              (giveFeedbackRun_ok_iff cfg env w.idState args w.rep rep1).1 hrun
            subst hrep1
            intro hi
            show (appendFeedback (bumpUsage w.rep (authKey auth)) args.agentId
              (mkFeedback env args)).feedback aid i = defaultFeedback
            rw [appendFeedback_feedbackCount, bumpUsage_feedbackCount] at hi
            rw [appendFeedback_feedback, bumpUsage_feedback, bumpUsage_feedbackCount]
            split
            next heq =>
              exfalso
              rcases heq with ⟨rfl, rfl⟩
              simp at hi
            next =>
              apply ih aid i
              by_cases haid : aid = args.agentId
              · subst haid; rw [if_pos rfl] at hi; omega
              · rwa [if_neg haid] at hi

/-- Reachability invariant: a request slot beyond the counter that still
reads as Pending has never been written at all, hence is the zeroed
default record. -/
theorem reachable_pending_default (cfg : Config) (w : World)
    (h : Reachable cfg w) :
    ∀ rid, w.val.requestCounter < rid → (w.val.requests rid).status = .Pending →
      w.val.requests rid = defaultRequest := by
  induction h with
  | init => intro rid _ _; rfl
  | step env op w hw ih =>
    intro rid
    unfold execTx
    cases hexec : execOp cfg env op w with
    | error e => exact ih rid
    | ok w1 =>
      show w1.val.requestCounter < rid → (w1.val.requests rid).status = .Pending →
        w1.val.requests rid = defaultRequest
      cases hval : op.touchesVal with
      | false =>
        rw [execOp_val_unchanged cfg env op w w1 hexec hval]
        exact ih rid
      | true =>
        cases op <;> simp only [RegistryOp.touchesVal] at hval <;> try cases hval
        next agentId uri hsh =>
          simp only [execOp] at hexec
          split at hexec
          · cases hexec
          next val1 rid1 hreq =>
            cases hexec
            obtain ⟨-, hcnt, hreqs, -⟩ :=
              requestValidationRun_ok env w.idState agentId uri hsh w.val val1 rid1 hreq
            intro hc hp
            rw [hcnt] at hc
            rw [hreqs rid] at hp ⊢
            rw [if_neg (by omega)] at hp ⊢
            exact ih rid (by omega) hp
        next rid0 uri hsh iv =>
          simp only [execOp] at hexec
          split at hexec
          · cases hexec
          next val1 hresp =>
            cases hexec
            obtain ⟨-, -, hcnt, hreqs, -⟩ :=
              respondToValidationRun_ok env w.idState rid0 uri hsh iv w.val val1 hresp
            intro hc hp
            rw [hcnt] at hc
            rw [hreqs rid] at hp ⊢
            split at hp
            · simp at hp
            next hne =>
              rw [if_neg hne]
              exact ih rid hc hp
        next rid0 =>
          simp only [execOp] at hexec
          split at hexec
          · cases hexec
          next val1 hcan =>
            cases hexec
            obtain ⟨-, -, hcnt, hreqs, -⟩ :=
              cancelValidationRun_ok env rid0 w.val val1 hcan
            intro hc hp
            rw [hcnt] at hc
            rw [hreqs rid] at hp ⊢
            split at hp
            · simp at hp
            next hne =>
              rw [if_neg hne]
              exact ih rid hc hp

/-- A 32-byte big-endian word holding a value below 256 in its last byte. -/
def word32 (v : Nat) : List Nat := List.replicate 31 0 ++ [v]

/-- The 224-byte struct encoding of the sample authorization
`(agentId 1, client 2, indexLimit 2, expiry 100, chainId 1, registry 3,
signer 4)`. -/
def sampleStructBytes : List Nat :=
  word32 1 ++ word32 2 ++ word32 2 ++ word32 100 ++ word32 1 ++ word32 3 ++ word32 4

/-- The decoded sample authorization. -/
def sampleAuth : FeedbackAuth := ⟨1, 2, 2, 100, 1, 3, 4⟩

/-- A well-formed sample blob: 224 struct bytes plus a 65-byte signature. -/
def sampleBlob : List Nat := sampleStructBytes ++ List.replicate 65 0

/-- Signature model in which address 4 is a programmable (contract) signer
whose `isValidSignature` accepts everything. -/
def acceptAllSig : SigModel :=
  ⟨fun a => if a = 4 then 1 else 0, fun _ _ => .error "ECDSAInvalidSignature",
   fun _ _ _ => true, fun _ => 0⟩

/-- Signature model in which address 4 is a programmable signer whose
`isValidSignature` rejects everything. -/
def rejectAllSig : SigModel :=
  ⟨fun a => if a = 4 then 1 else 0, fun _ _ => .error "ECDSAInvalidSignature",
   fun _ _ _ => false, fun _ => 0⟩

/-- Sample deployment with the identity registry at address 3. -/
def sampleCfg : Config := ⟨3, acceptAllSig⟩

/-- Sample deployment whose signer rejects every signature. -/
def rejectCfg : Config := ⟨3, rejectAllSig⟩

/-- Identity-registry state in which agent 1 exists and is owned by 4. -/
def sampleIdSt : IdentityState :=
  { initialIdentityState with
    owners := fun id => if id = 1 then some 4 else none, lastId := 2 }

/-- Sample call environment: sender 2, time 50, chain id 1. -/
def sampleEnv : CallEnv := ⟨2, 50, 1⟩

/-- Sample `giveFeedback` arguments carrying the well-formed 289-byte blob. -/
def sampleArgs : GiveFeedbackArgs := ⟨1, 80, 5, 6, "u", 7, sampleBlob⟩

/-- A 290-byte blob: the same struct encoding followed by 66 signature bytes. -/
def blob290 : List Nat := sampleStructBytes ++ List.replicate 66 0

/-- C1, counterexample: a `giveFeedback` call whose authorization blob is 290
bytes long — not the claimed exact combined length of 289 — passes the
`length >= 289` check of line 93, is parsed, and succeeds (the surplus bytes
ride along in the signature accepted by the programmable signer). So it is
not the case that every blob of length other than 289 is rejected. -/
theorem giveFeedback_accepts_290_byte_blob :
    blob290.length = 290 ∧
    (giveFeedbackTx sampleCfg sampleEnv sampleIdSt
      ⟨1, 80, 5, 6, "u", 7, blob290⟩ initialRepState).2 = true := by
  constructor
  · rfl
  · rfl

/-- C1 (amended): `giveFeedback` rejects, before parsing the struct portion,
every authorization blob SHORTER than the combined length 224 + 65 = 289;
for every call with a shorter blob (and an in-range score, which is checked
first), the call fails with the length error and no state changes. Longer
blobs pass the length check. -/
theorem giveFeedback_rejects_short_blob (cfg : Config) (env : CallEnv)
    (idSt : IdentityState) (a : GiveFeedbackArgs) (s : RepState)
    (hscore : a.score ≤ 100) (hlen : a.feedbackAuth.length < 289) :
    giveFeedbackRun cfg env idSt a s = .error "Invalid feedbackAuth length" ∧
    giveFeedbackTx cfg env idSt a s = (s, false) := by
  have h : giveFeedbackRun cfg env idSt a s = .error "Invalid feedbackAuth length" := by
    unfold giveFeedbackRun
    rw [if_pos hscore, if_neg (by omega)]
  refine ⟨h, ?_⟩
  unfold giveFeedbackTx
  rw [h]

/-- Witness for the amended C1 at a concrete empty blob. -/
theorem giveFeedback_rejects_short_blob_witness :
    giveFeedbackRun sampleCfg sampleEnv sampleIdSt ⟨1, 80, 5, 6, "u", 7, []⟩
      initialRepState = .error "Invalid feedbackAuth length" ∧
    giveFeedbackTx sampleCfg sampleEnv sampleIdSt ⟨1, 80, 5, 6, "u", 7, []⟩
      initialRepState = (initialRepState, false) :=
  giveFeedback_rejects_short_blob sampleCfg sampleEnv sampleIdSt _ _
    (by decide) (by decide)

/-- C2, counterexample: with a well-formed blob whose signature is invalid
the call fails, but the usage count observed after the call is 0 — the same
as before the call, not one greater: the revert rolls the increment back. -/
theorem failed_sig_does_not_consume_usage :
    (giveFeedbackTx rejectCfg sampleEnv sampleIdSt sampleArgs initialRepState).2
      = false ∧
    getAuthUsage initialRepState 1 2 2 100 = 0 ∧
    getAuthUsage (giveFeedbackTx rejectCfg sampleEnv sampleIdSt sampleArgs
      initialRepState).1 1 2 2 100
      ≠ getAuthUsage initialRepState 1 2 2 100 + 1 := by
  refine ⟨rfl, rfl, ?_⟩
  decide

/-- C2 (amended): for a call whose blob is well-formed (length, parameters
and usage all pass) but whose signature is invalid, the call fails at
signature verification with "Invalid signature"; the usage increment
performed before signature verification inside the call is discarded by the
revert, so the stored usage observed after the call equals the count before
the call. -/
theorem giveFeedback_invalid_sig_rolls_back_usage (cfg : Config)
    (env : CallEnv) (idSt : IdentityState) (a : GiveFeedbackArgs)
    (s : RepState) (auth : FeedbackAuth)
    (hscore : a.score ≤ 100) (hlen : 289 ≤ a.feedbackAuth.length)
    (hdec : decodeFeedbackAuth a.feedbackAuth = .ok auth)
    (hp : authParamsOk cfg env a.agentId auth)
    (hu : s.authUsageCount (authKey auth) < auth.indexLimit)
    (hsig : sigCheck cfg auth (a.feedbackAuth.drop 224) = .ok false) :
    giveFeedbackRun cfg env idSt a s = .error "Invalid signature" ∧
    giveFeedbackTx cfg env idSt a s = (s, false) ∧
    (giveFeedbackTx cfg env idSt a s).1.authUsageCount (authKey auth)
      = s.authUsageCount (authKey auth) := by
  obtain ⟨h1, h2, h3, h4, h5⟩ := hp
  have hrun : giveFeedbackRun cfg env idSt a s = .error "Invalid signature" := by
    simp [giveFeedbackRun, verifyFeedbackAuthRun, if_pos hscore, if_pos hlen,
      hdec, h1, h2, h3, h4, h5, hu, hsig]
  have htx : giveFeedbackTx cfg env idSt a s = (s, false) := by
    unfold giveFeedbackTx
    rw [hrun]
  exact ⟨hrun, htx, by rw [htx]⟩

/-- Witness for the amended C2 at the concrete rejecting deployment. -/
theorem giveFeedback_invalid_sig_rolls_back_usage_witness :
    giveFeedbackRun rejectCfg sampleEnv sampleIdSt sampleArgs initialRepState
      = .error "Invalid signature" ∧
    giveFeedbackTx rejectCfg sampleEnv sampleIdSt sampleArgs initialRepState
      = (initialRepState, false) ∧
    (giveFeedbackTx rejectCfg sampleEnv sampleIdSt sampleArgs
      initialRepState).1.authUsageCount (authKey sampleAuth)
      = initialRepState.authUsageCount (authKey sampleAuth) :=
  giveFeedback_invalid_sig_rolls_back_usage rejectCfg sampleEnv sampleIdSt
    sampleArgs initialRepState sampleAuth (by decide) (by decide) rfl
    (by decide) (by decide) rfl

/-- C3: every external operation of the three registries is atomic: whenever
the run of an operation fails for any reason, the transaction reverts and
the observable post-state — all identity, reputation and validation storage
— is exactly the pre-state, with no partial effects. -/
theorem registries_atomic (cfg : Config) (env : CallEnv) (op : RegistryOp)
    (w : World) (e : String) (h : execOp cfg env op w = .error e) :
    execTx cfg env op w = (w, false) := by
  unfold execTx
  rw [h]

/-- Witness for C3: a concrete failing call (score 101) leaves the freshly
deployed world untouched. -/
theorem registries_atomic_witness :
    execTx sampleCfg sampleEnv
      (.giveFeedback ⟨1, 101, 5, 6, "u", 7, sampleBlob⟩) initialWorld
      = (initialWorld, false) :=
  registries_atomic sampleCfg sampleEnv _ initialWorld "Score must be <= 100" rfl

/-- C4: `respondToValidation` never checks that the request id was created.
In every reachable world, a request id beyond `totalRequests()` whose slot
still reads Pending holds the zeroed default record (agentId 0, Pending),
`getRequest` returns exactly that record, and a caller who is owner,
operator, or delegate of the agent with id 0 can successfully respond to
the nonexistent request, setting its status to Responded and storing a
response. -/
theorem respond_to_nonexistent_request (cfg : Config) (w : World)
    (hreach : Reachable cfg w) (rid : Nat)
    (hrid : totalRequests w.val < rid)
    (hpend : (w.val.requests rid).status = .Pending)
    (env : CallEnv) (uri : String) (hsh : Nat) (iv : Bool)
    (hauth : isAuthorizedFor w.idState env.sender 0 = .ok true) :
    getRequest w.val rid = defaultRequest ∧
    ∃ val1, respondToValidationRun env w.idState rid uri hsh iv w.val = .ok val1 ∧
      (val1.requests rid).status = .Responded ∧
      val1.responses rid = ⟨uri, hsh, env.timestamp, iv⟩ := by
  have hdef : w.val.requests rid = defaultRequest :=
    reachable_pending_default cfg w hreach rid hrid hpend
  refine ⟨hdef, ⟨{ w.val with
      requests := fun id => if id = rid then ⟨0, 0, "", 0, 0, .Responded⟩
        else w.val.requests id,
      responses := fun id => if id = rid then ⟨uri, hsh, env.timestamp, iv⟩
        else w.val.responses id }, ?_, by simp, by simp⟩⟩
  simp [respondToValidationRun, hdef, hauth, defaultRequest]

/-- The world after one `register()` call by sender 7: agent 0 exists and is
owned by 7, and no validation request was ever created. -/
def regWorld : World :=
  (execTx sampleCfg ⟨7, 40, 1⟩ (.register "" []) initialWorld).1

/-- Witness for C4: in the world with just agent 0 registered, its owner
responds successfully to the never-created request id 5. -/
theorem respond_to_nonexistent_request_witness :
    getRequest regWorld.val 5 = defaultRequest ∧
    ∃ val1, respondToValidationRun ⟨7, 60, 1⟩ regWorld.idState 5 "r" 9 true
        regWorld.val = .ok val1 ∧
      (val1.requests 5).status = .Responded ∧
      val1.responses 5 = ⟨"r", 9, 60, true⟩ :=
  respond_to_nonexistent_request sampleCfg regWorld
    (Reachable.step ⟨7, 40, 1⟩ (.register "" []) initialWorld Reachable.init) 5
    (by decide) rfl ⟨7, 60, 1⟩ "r" 9 true rfl

/-- A single external `ValidationRegistry` mutation after request creation:
a `respondToValidation` or `cancelValidation` call with its own caller
environment (and identity state for the authorization check). -/
inductive ValOp
  | respond (env : CallEnv) (idSt : IdentityState) (requestId : Nat)
      (responseUri : String) (responseHash : Nat) (isValid : Bool)
  | cancel (env : CallEnv) (requestId : Nat)

/-- Transaction semantics of one respond/cancel call: a failed call leaves
the storage unchanged (revert). -/
def applyValOp (s : ValState) : ValOp → ValState
  | .respond env idSt rid uri hsh iv =>
    match respondToValidationRun env idSt rid uri hsh iv s with
    | .ok s1 => s1
    | .error _ => s
  | .cancel env rid =>
    match cancelValidationRun env rid s with
    | .ok s1 => s1
    | .error _ => s

/-- A sequence of respond/cancel transactions. -/
def applyValOps (s : ValState) (ops : List ValOp) : ValState :=
  ops.foldl applyValOp s

/-- One respond/cancel transaction cannot touch a request slot that is no
longer Pending. -/
theorem applyValOp_terminal_frozen (s : ValState) (op : ValOp) (rid : Nat)
    (h : (s.requests rid).status ≠ .Pending) :
    (applyValOp s op).requests rid = s.requests rid ∧
    (applyValOp s op).responses rid = s.responses rid := by
  cases op with
  | respond env idSt rid0 uri hsh iv =>
    simp only [applyValOp]
    cases hr : respondToValidationRun env idSt rid0 uri hsh iv s with
    | error e => exact ⟨rfl, rfl⟩
    | ok s1 =>
      obtain ⟨hpend, -, -, hreqs, hresps⟩ :=
        respondToValidationRun_ok env idSt rid0 uri hsh iv s s1 hr
      have hne : rid ≠ rid0 := by
        rintro rfl
        exact h hpend
      constructor
      · show s1.requests rid = s.requests rid
        rw [hreqs rid, if_neg hne]
      · show s1.responses rid = s.responses rid
        rw [hresps rid, if_neg hne]
  | cancel env rid0 =>
    simp only [applyValOp]
    cases hr : cancelValidationRun env rid0 s with
    | error e => exact ⟨rfl, rfl⟩
    | ok s1 =>
      obtain ⟨-, hpend, -, hreqs, hresps⟩ :=
        cancelValidationRun_ok env rid0 s s1 hr
      have hne : rid ≠ rid0 := by
        rintro rfl
        exact h hpend
      constructor
      · show s1.requests rid = s.requests rid
        rw [hreqs rid, if_neg hne]
      · show s1.responses rid = s.responses rid
        rw [hresps]

/-- No sequence of respond/cancel transactions touches a request slot that
is no longer Pending. -/
theorem applyValOps_terminal_frozen (rid : Nat) :
    ∀ (ops : List ValOp) (s : ValState), (s.requests rid).status ≠ .Pending →
      (applyValOps s ops).requests rid = s.requests rid ∧
      (applyValOps s ops).responses rid = s.responses rid := by
  intro ops
  induction ops with
  | nil => exact fun s _ => ⟨rfl, rfl⟩
  | cons op ops ih =>
    intro s h
    obtain ⟨h1, h2⟩ := applyValOp_terminal_frozen s op rid h
    have h3 : ((applyValOp s op).requests rid).status ≠ .Pending := by
      rw [h1]
      exact h
    obtain ⟨h4, h5⟩ := ih (applyValOp s op) h3
    constructor
    · show (applyValOps (applyValOp s op) ops).requests rid = s.requests rid
      rw [h4, h1]
    · show (applyValOps (applyValOp s op) ops).responses rid = s.responses rid
      rw [h5, h2]

/-- C5: a validation request transitions at most once out of Pending. Once
its status is Responded or Cancelled, no sequence of `respondToValidation`
or `cancelValidation` transactions changes its stored request fields or its
stored response; `respondToValidation` succeeds only while the slot is
Pending with the caller owner/operator/delegate of the request's agent, and
`cancelValidation` succeeds only while the slot is Pending with the caller
the original client. -/
theorem validation_request_terminal :
    (∀ (s : ValState) (rid : Nat), (s.requests rid).status ≠ .Pending →
      ∀ ops : List ValOp,
        (applyValOps s ops).requests rid = s.requests rid ∧
        (applyValOps s ops).responses rid = s.responses rid) ∧
    (∀ (env : CallEnv) (idSt : IdentityState) (rid : Nat) (uri : String)
        (hsh : Nat) (iv : Bool) (s s1 : ValState),
      respondToValidationRun env idSt rid uri hsh iv s = .ok s1 →
        (s.requests rid).status = .Pending ∧
        isAuthorizedFor idSt env.sender (s.requests rid).agentId = .ok true) ∧
    (∀ (env : CallEnv) (rid : Nat) (s s1 : ValState),
      cancelValidationRun env rid s = .ok s1 →
        (s.requests rid).status = .Pending ∧
        (s.requests rid).client = env.sender) := by
  refine ⟨?_, ?_, ?_⟩
  · intro s rid h ops
    exact applyValOps_terminal_frozen rid ops s h
  · intro env idSt rid uri hsh iv s s1 h
    obtain ⟨h1, h2, -, -, -⟩ := respondToValidationRun_ok env idSt rid uri hsh iv s s1 h
    exact ⟨h1, h2⟩
  · intro env rid s s1 h
    obtain ⟨h1, h2, -, -, -⟩ := cancelValidationRun_ok env rid s s1 h
    exact ⟨h2, h1⟩

/-- A validation state whose request 1 has already been responded. -/
def respondedState : ValState :=
  { initialValState with
    requestCounter := 1,
    requests := fun id => if id = 1 then ⟨0, 9, "", 0, 0, .Responded⟩
      else defaultRequest }

/-- A validation state whose request 1 is pending for client 9. -/
def pendingClientState : ValState :=
  { initialValState with
    requestCounter := 1,
    requests := fun id => if id = 1 then ⟨0, 9, "", 0, 0, .Pending⟩
      else defaultRequest }

/-- Witness for C5: a cancel attempt on the already-responded request 1
changes nothing, and a successful concrete cancel implies the Pending
status and client identity of the caller. -/
theorem validation_request_terminal_witness :
    ((applyValOps respondedState [ValOp.cancel ⟨9, 0, 0⟩ 1]).requests 1
        = respondedState.requests 1 ∧
      (applyValOps respondedState [ValOp.cancel ⟨9, 0, 0⟩ 1]).responses 1
        = respondedState.responses 1) ∧
    ((pendingClientState.requests 1).status = .Pending ∧
      (pendingClientState.requests 1).client = (⟨9, 0, 0⟩ : CallEnv).sender) :=
  ⟨validation_request_terminal.1 respondedState 1 (by decide)
      [ValOp.cancel ⟨9, 0, 0⟩ 1],
    validation_request_terminal.2.2 ⟨9, 0, 0⟩ 1 pendingClientState _ rfl⟩

/-- State after `n` transaction-level `giveFeedback` calls, the `i`-th call
using arguments `argsAt i` (a failed call leaves the state unchanged). -/
def redeemSeq (cfg : Config) (env : CallEnv) (idSt : IdentityState)
    (argsAt : Nat → GiveFeedbackArgs) (s : RepState) : Nat → RepState
  | 0 => s
  | n + 1 =>
    (giveFeedbackTx cfg env idSt (argsAt n)
      (redeemSeq cfg env idSt argsAt s n)).1

/-- Under the acceptance conditions of one fixed authorization blob, the
usage count of its key after `n ≤ indexLimit` redemption transactions is
exactly `n`. -/
theorem redeemSeq_usage (cfg : Config) (env : CallEnv) (idSt : IdentityState)
    (argsAt : Nat → GiveFeedbackArgs) (s : RepState) (blob : List Nat)
    (auth : FeedbackAuth)
    (hdec : decodeFeedbackAuth blob = .ok auth)
    (hargs : ∀ i, (argsAt i).feedbackAuth = blob ∧
      (argsAt i).agentId = auth.agentId ∧ (argsAt i).score ≤ 100)
    (hlen : 289 ≤ blob.length)
    (hcl : auth.clientAddress = env.sender)
    (hexp : env.timestamp < auth.expiry)
    (hch : auth.chainId = env.chainId)
    (hreg : auth.identityRegistry = cfg.identityRegistryAddr)
    (hsig : sigCheck cfg auth (blob.drop 224) = .ok true)
    (hsa : signerAuthCheck idSt auth = .ok true)
    (h0 : s.authUsageCount (authKey auth) = 0) :
    ∀ n, n ≤ auth.indexLimit →
      (redeemSeq cfg env idSt argsAt s n).authUsageCount (authKey auth) = n := by
  intro n
  induction n with
  | zero => exact fun _ => h0
  | succ n ih =>
    intro hn
    have husage : (redeemSeq cfg env idSt argsAt s n).authUsageCount (authKey auth) = n :=
      ih (by omega)
    obtain ⟨hb, ha, hs⟩ := hargs n
    have hok : giveFeedbackRun cfg env idSt (argsAt n)
        (redeemSeq cfg env idSt argsAt s n)
        = .ok (appendFeedback (bumpUsage (redeemSeq cfg env idSt argsAt s n)
            (authKey auth)) (argsAt n).agentId (mkFeedback env (argsAt n))) := by
      apply (giveFeedbackRun_ok_iff cfg env idSt (argsAt n)
        (redeemSeq cfg env idSt argsAt s n) _).2
      exact ⟨hs, by rw [hb]; exact hlen, auth, by rw [hb]; exact hdec,
        ⟨ha.symm, hcl, hexp, hch, hreg⟩, by rw [husage]; omega,
        by rw [hb]; exact hsig, hsa, rfl⟩
    show (giveFeedbackTx cfg env idSt (argsAt n)
      (redeemSeq cfg env idSt argsAt s n)).1.authUsageCount (authKey auth) = n + 1
    unfold giveFeedbackTx
    rw [hok]
    show (appendFeedback (bumpUsage (redeemSeq cfg env idSt argsAt s n)
      (authKey auth)) (argsAt n).agentId
      (mkFeedback env (argsAt n))).authUsageCount (authKey auth) = n + 1
    rw [appendFeedback_authUsageCount, bumpUsage_authUsageCount, if_pos rfl, husage]

/-- C6: in every reachable state, a stored usage count never exceeds the
`indexLimit` component of its own key; and redeeming one fixed authorization
blob repeatedly, with every other acceptance condition holding, succeeds on
each of the first `indexLimit` transactions and fails on the next attempt
with the usage-limit error, regardless of the scores and tags passed in
each call. -/
theorem usage_limit_exact :
    (∀ (cfg : Config) (w : World), Reachable cfg w →
      ∀ ka kc kl ke, w.rep.authUsageCount (ka, kc, kl, ke) ≤ kl) ∧
    (∀ (cfg : Config) (env : CallEnv) (idSt : IdentityState)
        (argsAt : Nat → GiveFeedbackArgs) (s : RepState)
        (blob : List Nat) (auth : FeedbackAuth),
      decodeFeedbackAuth blob = .ok auth →
      (∀ i, (argsAt i).feedbackAuth = blob ∧
        (argsAt i).agentId = auth.agentId ∧ (argsAt i).score ≤ 100) →
      289 ≤ blob.length →
      auth.clientAddress = env.sender →
      env.timestamp < auth.expiry →
      auth.chainId = env.chainId →
      auth.identityRegistry = cfg.identityRegistryAddr →
      sigCheck cfg auth (blob.drop 224) = .ok true →
      signerAuthCheck idSt auth = .ok true →
      s.authUsageCount (authKey auth) = 0 →
      (∀ i, i < auth.indexLimit →
        (giveFeedbackTx cfg env idSt (argsAt i)
          (redeemSeq cfg env idSt argsAt s i)).2 = true) ∧
      giveFeedbackRun cfg env idSt (argsAt auth.indexLimit)
        (redeemSeq cfg env idSt argsAt s auth.indexLimit)
        = .error "Authorization limit exceeded") := by
  constructor
  · exact reachable_usage_le_limit
  · intro cfg env idSt argsAt s blob auth hdec hargs hlen hcl hexp hch hreg hsig hsa h0
    constructor
    · intro i hi
      have husage : (redeemSeq cfg env idSt argsAt s i).authUsageCount (authKey auth) = i :=
        redeemSeq_usage cfg env idSt argsAt s blob auth hdec hargs hlen hcl hexp
          hch hreg hsig hsa h0 i (by omega)
      obtain ⟨hb, ha, hs⟩ := hargs i
      have hok : giveFeedbackRun cfg env idSt (argsAt i)
          (redeemSeq cfg env idSt argsAt s i)
          = .ok (appendFeedback (bumpUsage (redeemSeq cfg env idSt argsAt s i)
              (authKey auth)) (argsAt i).agentId (mkFeedback env (argsAt i))) := by
        apply (giveFeedbackRun_ok_iff cfg env idSt (argsAt i)
          (redeemSeq cfg env idSt argsAt s i) _).2
        exact ⟨hs, by rw [hb]; exact hlen, auth, by rw [hb]; exact hdec,
          ⟨ha.symm, hcl, hexp, hch, hreg⟩, by rw [husage]; omega,
          by rw [hb]; exact hsig, hsa, rfl⟩
      unfold giveFeedbackTx
      rw [hok]
    · have husage : (redeemSeq cfg env idSt argsAt s auth.indexLimit).authUsageCount
          (authKey auth) = auth.indexLimit :=
        redeemSeq_usage cfg env idSt argsAt s blob auth hdec hargs hlen hcl hexp
          hch hreg hsig hsa h0 auth.indexLimit (le_refl _)
      obtain ⟨hb, ha, hs⟩ := hargs auth.indexLimit
      have hver : verifyFeedbackAuthRun cfg env idSt (argsAt auth.indexLimit).agentId
          blob (redeemSeq cfg env idSt argsAt s auth.indexLimit)
          = .error "Authorization limit exceeded" := by
        simp only [verifyFeedbackAuthRun, hdec]
        rw [if_pos ha.symm, if_pos hcl, if_pos hexp, if_pos hch, if_pos hreg,
          if_neg (by rw [husage]; omega)]
      simp only [giveFeedbackRun, hb, if_pos hs, if_pos hlen, hver]

/-- Per-call arguments for the witness: distinct tags each call, same blob. -/
def c6Args : Nat → GiveFeedbackArgs := fun i => ⟨1, 80, i, i, "u", 7, sampleBlob⟩

/-- Witness for C6 at the concrete sample: the limit is 2, the first two
redemptions succeed, the third fails with the limit error. -/
theorem usage_limit_exact_witness :
    initialWorld.rep.authUsageCount (0, 0, 0, 0) ≤ 0 ∧
    (giveFeedbackTx sampleCfg sampleEnv sampleIdSt (c6Args 0)
      (redeemSeq sampleCfg sampleEnv sampleIdSt c6Args initialRepState 0)).2 = true ∧
    (giveFeedbackTx sampleCfg sampleEnv sampleIdSt (c6Args 1)
      (redeemSeq sampleCfg sampleEnv sampleIdSt c6Args initialRepState 1)).2 = true ∧
    giveFeedbackRun sampleCfg sampleEnv sampleIdSt (c6Args 2)
      (redeemSeq sampleCfg sampleEnv sampleIdSt c6Args initialRepState 2)
      = .error "Authorization limit exceeded" := by
  have h := usage_limit_exact.2 sampleCfg sampleEnv sampleIdSt c6Args
    initialRepState sampleBlob sampleAuth rfl
    (fun i => ⟨rfl, rfl, by show (80 : Nat) ≤ 100; decide⟩)
    (by decide) rfl (by decide) rfl rfl rfl rfl rfl
  exact ⟨usage_limit_exact.1 sampleCfg initialWorld Reachable.init 0 0 0 0,
    h.1 0 (by decide), h.1 1 (by decide), h.2⟩

/-- C7: `getFeedback` succeeds exactly on indices `1..feedbackCount[agentId]`
(so the entries are addressable with no gaps); every successful
`giveFeedback` increases the agent's count by exactly 1, leaves every other
agent's count unchanged, and makes the new entry readable at the new count
as its index; and in every reachable state the slots above the counter are
unwritten (the zero value), so the counter equals the number of stored
entries. -/
theorem feedback_count_addressable :
    (∀ (s : RepState) (aid i : Nat),
      (∃ fb, getFeedback s aid i = .ok fb) ↔ 1 ≤ i ∧ i ≤ s.feedbackCount aid) ∧
    (∀ (cfg : Config) (env : CallEnv) (idSt : IdentityState)
        (a : GiveFeedbackArgs) (s s1 : RepState),
      giveFeedbackRun cfg env idSt a s = .ok s1 →
        s1.feedbackCount a.agentId = s.feedbackCount a.agentId + 1 ∧
        (∀ b, b ≠ a.agentId → s1.feedbackCount b = s.feedbackCount b) ∧
        getFeedback s1 a.agentId (s1.feedbackCount a.agentId)
          = .ok (mkFeedback env a)) ∧
    (∀ (cfg : Config) (w : World), Reachable cfg w →
      ∀ aid i, w.rep.feedbackCount aid < i →
        w.rep.feedback aid i = defaultFeedback) := by
  refine ⟨?_, ?_, reachable_feedback_default⟩
  · intro s aid i
    constructor
    · rintro ⟨fb, hfb⟩
      by_cases hcond : 0 < i ∧ i ≤ s.feedbackCount aid
      · exact hcond
      · rw [getFeedback, if_neg hcond] at hfb
        cases hfb
    · intro hcond
      refine ⟨s.feedback aid i, ?_⟩
      rw [getFeedback, if_pos (show 0 < i ∧ i ≤ s.feedbackCount aid from hcond)]
  · intro cfg env idSt a s s1 h
    obtain ⟨-, -, auth, -, -, -, -, -, hs1⟩ :=
      (giveFeedbackRun_ok_iff cfg env idSt a s s1).1 h
    subst hs1
    have hcnt : (appendFeedback (bumpUsage s (authKey auth)) a.agentId
        (mkFeedback env a)).feedbackCount a.agentId = s.feedbackCount a.agentId + 1 := by
      rw [appendFeedback_feedbackCount, if_pos rfl, bumpUsage_feedbackCount]
    refine ⟨hcnt, ?_, ?_⟩
    · intro b hb
      rw [appendFeedback_feedbackCount, if_neg hb, bumpUsage_feedbackCount]
    · rw [hcnt, getFeedback,
        if_pos ⟨by omega, by rw [hcnt]⟩,
        appendFeedback_feedback, bumpUsage_feedback, bumpUsage_feedbackCount,
        if_pos ⟨rfl, rfl⟩]

/-- The reputation state after one successful sample `giveFeedback`. -/
def samplePost : RepState :=
  appendFeedback (bumpUsage initialRepState (authKey sampleAuth)) 1
    (mkFeedback sampleEnv sampleArgs)

/-- Witness for C7 at the concrete sample call. -/
theorem feedback_count_addressable_witness :
    ((∃ fb, getFeedback samplePost 1 1 = .ok fb) ↔
      1 ≤ 1 ∧ 1 ≤ samplePost.feedbackCount 1) ∧
    samplePost.feedbackCount 1 = initialRepState.feedbackCount 1 + 1 ∧
    samplePost.feedbackCount 0 = initialRepState.feedbackCount 0 ∧
    getFeedback samplePost 1 (samplePost.feedbackCount 1)
      = .ok (mkFeedback sampleEnv sampleArgs) ∧
    initialWorld.rep.feedback 0 5 = defaultFeedback := by
  have h := feedback_count_addressable.2.1 sampleCfg sampleEnv sampleIdSt
    sampleArgs initialRepState samplePost rfl
  exact ⟨feedback_count_addressable.1 samplePost 1 1, h.1,
    h.2.1 0 (by decide), h.2.2,
    feedback_count_addressable.2.2 sampleCfg initialWorld Reachable.init 0 5
      (by decide)⟩

/-- C8: the expiry check of `giveFeedback` is strict. An authorization whose
expiry equals the current ledger time is rejected with the expired error
(after the agent-id and caller checks that precede it), while an
otherwise-identical authorization with expiry equal to current time + 1
passes the expiry check, and the call succeeds when every other acceptance
condition holds. -/
theorem expiry_boundary :
    (∀ (cfg : Config) (env : CallEnv) (idSt : IdentityState)
        (a : GiveFeedbackArgs) (s : RepState) (auth : FeedbackAuth),
      a.score ≤ 100 → 289 ≤ a.feedbackAuth.length →
      decodeFeedbackAuth a.feedbackAuth = .ok auth →
      auth.agentId = a.agentId → auth.clientAddress = env.sender →
      auth.expiry = env.timestamp →
      giveFeedbackRun cfg env idSt a s = .error "Authorization expired") ∧
    (∀ (cfg : Config) (env : CallEnv) (idSt : IdentityState)
        (a : GiveFeedbackArgs) (s : RepState) (auth : FeedbackAuth),
      a.score ≤ 100 → 289 ≤ a.feedbackAuth.length →
      decodeFeedbackAuth a.feedbackAuth = .ok auth →
      auth.agentId = a.agentId → auth.clientAddress = env.sender →
      auth.expiry = env.timestamp + 1 →
      auth.chainId = env.chainId →
      auth.identityRegistry = cfg.identityRegistryAddr →
      s.authUsageCount (authKey auth) < auth.indexLimit →
      sigCheck cfg auth (a.feedbackAuth.drop 224) = .ok true →
      signerAuthCheck idSt auth = .ok true →
      giveFeedbackRun cfg env idSt a s
        = .ok (appendFeedback (bumpUsage s (authKey auth)) a.agentId
            (mkFeedback env a))) := by
  constructor
  · intro cfg env idSt a s auth hs hl hdec hA hC hE
    have hver : verifyFeedbackAuthRun cfg env idSt a.agentId a.feedbackAuth s
        = .error "Authorization expired" := by
      simp only [verifyFeedbackAuthRun, hdec]
      rw [if_pos hA, if_pos hC, if_neg (by omega)]
    simp only [giveFeedbackRun, if_pos hs, if_pos hl, hver]
  · intro cfg env idSt a s auth hs hl hdec hA hC hE hch hreg hu hsig hsa
    exact (giveFeedbackRun_ok_iff cfg env idSt a s _).2
      ⟨hs, hl, auth, hdec, ⟨hA, hC, by omega, hch, hreg⟩, hu, hsig, hsa, rfl⟩

/-- Witness for C8: the sample authorization (expiry 100) is rejected at
time 100 and redeemed successfully at time 99. -/
theorem expiry_boundary_witness :
    giveFeedbackRun sampleCfg ⟨2, 100, 1⟩ sampleIdSt sampleArgs initialRepState
      = .error "Authorization expired" ∧
    giveFeedbackRun sampleCfg ⟨2, 99, 1⟩ sampleIdSt sampleArgs initialRepState
      = .ok (appendFeedback (bumpUsage initialRepState (authKey sampleAuth)) 1
          (mkFeedback ⟨2, 99, 1⟩ sampleArgs)) :=
  ⟨expiry_boundary.1 sampleCfg ⟨2, 100, 1⟩ sampleIdSt sampleArgs initialRepState
      sampleAuth (by decide) (by decide) rfl rfl rfl rfl,
    expiry_boundary.2 sampleCfg ⟨2, 99, 1⟩ sampleIdSt sampleArgs initialRepState
      sampleAuth (by decide) (by decide) rfl rfl rfl rfl rfl rfl (by decide) rfl rfl⟩

/-- C9: `getAverageScore` returns `(0, 0)` for an agent without feedback
(no division happens), otherwise `(sum of stored scores * 100 / count,
count)` with exact integer (floor) division; in particular scores
`[80, 90, 100]` yield `(9000, 3)`. -/
theorem average_score_spec :
    (∀ (s : RepState) (aid : Nat), s.feedbackCount aid = 0 →
      getAverageScore s aid = (0, 0)) ∧
    (∀ (s : RepState) (aid : Nat), s.feedbackCount aid ≠ 0 →
      getAverageScore s aid
        = (sumScores s aid * 100 / s.feedbackCount aid, s.feedbackCount aid)) ∧
    (∀ (s : RepState) (aid : Nat), s.feedbackCount aid = 3 →
      (s.feedback aid 1).score = 80 → (s.feedback aid 2).score = 90 →
      (s.feedback aid 3).score = 100 →
      getAverageScore s aid = (9000, 3)) := by
  refine ⟨?_, ?_, ?_⟩
  · intro s aid h
    simp [getAverageScore, h]
  · intro s aid h
    simp [getAverageScore, h]
  · intro s aid h3 h80 h90 h100
    have hr : List.range 3 = [0, 1, 2] := rfl
    simp [getAverageScore, sumScores, h3, hr, h80, h90, h100]

/-- A reputation state with the three scores 80, 90, 100 stored for agent 1. -/
def threeScoreState : RepState :=
  { initialRepState with
    feedbackCount := fun aid => if aid = 1 then 3 else 0,
    feedback := fun aid i =>
      if aid = 1 ∧ i = 1 then { defaultFeedback with score := 80 }
      else if aid = 1 ∧ i = 2 then { defaultFeedback with score := 90 }
      else if aid = 1 ∧ i = 3 then { defaultFeedback with score := 100 }
      else defaultFeedback }

/-- Witness for C9 at concrete states. -/
theorem average_score_spec_witness :
    getAverageScore initialRepState 0 = (0, 0) ∧
    getAverageScore threeScoreState 1
      = (sumScores threeScoreState 1 * 100 / threeScoreState.feedbackCount 1,
         threeScoreState.feedbackCount 1) ∧
    getAverageScore threeScoreState 1 = (9000, 3) :=
  ⟨average_score_spec.1 initialRepState 0 rfl,
    average_score_spec.2.1 threeScoreState 1 (by decide),
    average_score_spec.2.2 threeScoreState 1 rfl rfl rfl rfl⟩

/-- C10: for every agent with at least one feedback entry,
`getFeedbackBatch(agentId, 1, feedbackCount[agentId])` returns exactly the
entries that `getFeedback(agentId, i)` yields for `i = 1..count`, in order. -/
theorem batch_roundtrip (s : RepState) (aid : Nat)
    (h : 1 ≤ s.feedbackCount aid) :
    getFeedbackBatch s aid 1 (s.feedbackCount aid)
      = .ok ((List.range (s.feedbackCount aid)).map
          (fun i => s.feedback aid (1 + i))) ∧
    ∀ i, i < s.feedbackCount aid →
      getFeedback s aid (1 + i) = .ok (s.feedback aid (1 + i)) := by
  constructor
  · rw [getFeedbackBatch, if_pos (by omega), if_pos (le_refl _), if_pos h,
      Nat.sub_add_cancel h]
  · intro i hi
    rw [getFeedback, if_pos ⟨by omega, by omega⟩]

/-- Witness for C10 at the concrete three-entry state. -/
theorem batch_roundtrip_witness :
    getFeedbackBatch threeScoreState 1 1 (threeScoreState.feedbackCount 1)
      = .ok ((List.range (threeScoreState.feedbackCount 1)).map
          (fun i => threeScoreState.feedback 1 (1 + i))) ∧
    getFeedback threeScoreState 1 (1 + 0)
      = .ok (threeScoreState.feedback 1 (1 + 0)) :=
  ⟨(batch_roundtrip threeScoreState 1 (by decide)).1,
    (batch_roundtrip threeScoreState 1 (by decide)).2 0 (by decide)⟩

end ZKredit
